import Mathlib

/-!
Verification of the vger-rs atlas packing/upload engine and glyph cache
(`src/atlas.rs`, `src/glyphs.rs`).

The Rust code is shallowly embedded: `u32` fields become `Nat`, `i32`
fields become `Int` (the values involved stay far from the 32-bit
boundaries, so wrap-around is not modelled), byte buffers become
`List Nat`, the two `HashMap`s become association lists, and `f32`
arithmetic (the usage ratio and the doubling in `check_usage`) is
modelled exactly over `ℚ` and `Nat` (exact for all realistic sizes,
i.e. dimensions below 2^24).  GPU handles (`wgpu::Device`,
`wgpu::Texture`, `wgpu::CommandEncoder`) are opaque collaborators: the
texture handle is omitted from the state, and `update` returns the list
of copy commands it records on the encoder.
-/

namespace Vger

/-- Mirror of `rect_packer::Rect`: `{x, y, width, height}` with `i32` fields. -/
structure Rect where
  x : Int
  y : Int
  width : Int
  height : Int
deriving DecidableEq, Repr

/-- Mirror of `rect_packer::Config`. -/
structure PackerConfig where
  width : Int
  height : Int
  border_padding : Int
  rectangle_padding : Int
deriving DecidableEq, Repr

/-- Modelled from the spec: the external `rect_packer::Packer` is "a greedy,
non-rotating, first-fit heuristic with fixed padding" (border padding and
inter-rectangle padding from the config).  We model it as a shelf packer:
a cursor walks left to right along the current shelf, opening a new shelf
below when the current one is full.  Its crate-internal state is not part
of this repository, so only the spec-stated interface behaviour matters:
`pack` returns a rectangle of exactly the requested size that fits inside
the configured bounds with the configured padding, or fails. -/
structure Packer where
  config : PackerConfig
  cursor_x : Int
  cursor_y : Int
  shelf_height : Int
deriving DecidableEq, Repr

/-- Modelled from the spec: a fresh packer has an empty packing area; the
cursor starts at the border padding offset. -/
def Packer.new (config : PackerConfig) : Packer :=
  { config := config
    cursor_x := config.border_padding
    cursor_y := config.border_padding
    shelf_height := 0 }

/-- Modelled from the spec: first-fit placement of a `w × h` rectangle, no
rotation.  Succeeds on the current shelf, or on a fresh shelf below it,
keeping `border_padding` from every edge and `rectangle_padding` between
rectangles; otherwise fails (no free space of sufficient size).  A failed
`pack` leaves the packer unchanged (callers keep the old state). -/
def Packer.pack (p : Packer) (w h : Int) : Option (Rect × Packer) :=
  if w < 0 ∨ h < 0 then none
  else if p.cursor_x + w + p.config.border_padding ≤ p.config.width ∧
          p.cursor_y + h + p.config.border_padding ≤ p.config.height then
    some ({ x := p.cursor_x, y := p.cursor_y, width := w, height := h },
      { p with
          cursor_x := p.cursor_x + w + p.config.rectangle_padding
          shelf_height := max p.shelf_height h })
  else
    let ny := p.cursor_y + p.shelf_height + p.config.rectangle_padding
    if p.config.border_padding + w + p.config.border_padding ≤ p.config.width ∧
        ny + h + p.config.border_padding ≤ p.config.height then
      some ({ x := p.config.border_padding, y := ny, width := w, height := h },
        { p with
            cursor_x := p.config.border_padding + w + p.config.rectangle_padding
            cursor_y := ny
            shelf_height := h })
    else none

/-- Mirror of `ImageData` in `src/atlas.rs`: a queued pending upload. -/
structure ImageData where
  rect : Rect
  data : List Nat
deriving DecidableEq, Repr

/-- Mirror of `AtlasContent` in `src/atlas.rs`. -/
inductive AtlasContent where
  | Mask
  | Color
deriving DecidableEq, Repr

/-- Mirror of `Atlas` in `src/atlas.rs`.  The `wgpu::Texture` handle is an
opaque GPU resource and is omitted from the state. -/
structure Atlas where
  max_seen : Nat
  width : Nat
  height : Nat
  packer : Packer
  new_data : List ImageData
  area_used : Int
  did_clear : Bool
  content : AtlasContent
deriving DecidableEq, Repr

/-- Mirror of `Atlas::RECT_PADDING` (6 pixels). -/
def Atlas.RECT_PADDING : Int := 6

/-- Mirror of `Atlas::get_packer_config`. -/
def Atlas.get_packer_config (width height : Nat) : PackerConfig :=
  { width := (width : Int)
    height := (height : Int)
    border_padding := Atlas.RECT_PADDING
    rectangle_padding := Atlas.RECT_PADDING }

/-- Mirror of `Atlas::new` (texture allocation omitted). -/
def Atlas.new (content : AtlasContent) (width height : Nat) : Atlas :=
  { max_seen := 0
    width := width
    height := height
    packer := Packer.new (Atlas.get_packer_config width height)
    new_data := []
    area_used := 0
    did_clear := false
    content := content }

/-- Mirror of `Atlas::clear`. -/
def Atlas.clear (a : Atlas) : Atlas :=
  { a with
      packer := Packer.new (Atlas.get_packer_config a.width a.height)
      area_used := 0
      new_data := []
      did_clear := true }

/-- Mirror of `Atlas::resize` (texture reallocation omitted): stores the new
dimensions, then performs the same transition as `clear`. -/
def Atlas.resize (a : Atlas) (width height : Nat) : Atlas :=
  Atlas.clear { a with width := width, height := height }

/-- Mirror of `Atlas::add_region`.  Rust mutates `self` and returns
`Option<Rect>`; we return the option together with the updated atlas.
Note the `max_seen` update happens before the packer is consulted, exactly
as in the source. -/
def Atlas.add_region (a : Atlas) (data : List Nat) (width height : Nat) :
    Option Rect × Atlas :=
  let m := max width height
  let a := if a.max_seen < m then { a with max_seen := m } else a
  match a.packer.pack (width : Int) (height : Int) with
  | some (rect, packer) =>
    (some rect,
      { a with
          packer := packer
          new_data := a.new_data ++ [{ rect := rect, data := data }]
          area_used := a.area_used +
            (rect.width + Atlas.RECT_PADDING) * (rect.height + Atlas.RECT_PADDING) })
  | none => (none, a)

/-- Mirror of `Atlas::usage`: `area_used / (width*height)`.  The `f32`
division is modelled exactly over `ℚ` (and the `u32` product `width*height`
without wrap-around). -/
def Atlas.usage (a : Atlas) : ℚ :=
  (a.area_used : ℚ) / ((a.width * a.height : Nat) : ℚ)

/-- Mirror of `wgpu::COPY_BYTES_PER_ROW_ALIGNMENT` (256 bytes). -/
def copyBytesPerRowAlign : Nat := 256

/-- Bytes per pixel of each `AtlasContent`, as matched in `Atlas::update`. -/
def AtlasContent.pixels : AtlasContent → Int
  | .Mask => 1
  | .Color => 4

/-- Reading `data.data[i]`, `i += 1` for `count` steps, as the inner
`for _ in 0..width` loop of `Atlas::update` does.  An out-of-bounds index
(a panic in Rust) is `none`. -/
def readRun (bytes : List Nat) : Nat → Nat → Option (List Nat)
  | _, 0 => some []
  | i, c + 1 =>
    match bytes.get? i with
    | none => none
    | some b =>
      match readRun bytes (i + 1) c with
      | none => none
      | some rest => some (b :: rest)

/-- Effect of the `while (padded_data.len() % ALIGN) != 0 { push(0) }` loop
in `Atlas::update`: append zero bytes until the length is a multiple of
`copyBytesPerRowAlign`. -/
def padAlign (l : List Nat) : List Nat :=
  l ++ List.replicate
    ((copyBytesPerRowAlign - l.length % copyBytesPerRowAlign) % copyBytesPerRowAlign) 0

/-- The row loop of `Atlas::update`: for each of `rows` rows, push `width`
source bytes (advancing the running index `i`) and then zero-pad the row to
the copy alignment. -/
def repackLoop (bytes : List Nat) (width : Nat) : Nat → List Nat → Nat → Option (List Nat)
  | _, acc, 0 => some acc
  | i, acc, r + 1 =>
    match readRun bytes i width with
    | none => none
    | some row => repackLoop bytes width (i + width) (padAlign (acc ++ row)) r

/-- The whole repacking of one queued upload in `Atlas::update`: tightly
packed source bytes of a `width`-bytes-per-row, `rows`-row image become a
buffer whose rows are padded to the copy alignment.  `width` is the rect
width in pixels times the bytes per pixel. -/
def repackData (bytes : List Nat) (width rows : Nat) : Option (List Nat) :=
  repackLoop bytes width 0 [] rows

/-- A row width rounded up to the next multiple of the copy alignment,
as computed by `let padding = (align - width % align) % align` in
`Atlas::update`. -/
def paddedWidth (width : Nat) : Nat :=
  width + (copyBytesPerRowAlign - width % copyBytesPerRowAlign) % copyBytesPerRowAlign

/-- A GPU command recorded on the encoder by `Atlas::update`: either the
full-atlas zero-fill `copy_buffer_to_texture` issued for a pending clear,
or a per-region `copy_buffer_to_texture` at a rect's origin with the
rect's unpadded dimensions. -/
inductive Cmd where
  | zeroFill (width height : Nat) (padded_width : Int) (bytes : List Nat)
  | copyRegion (x y : Int) (width height : Int) (padded_width : Int) (bytes : List Nat)
deriving DecidableEq, Repr

/-- The `for data in &self.new_data` loop of `Atlas::update`, producing the
per-region copy commands in queued order; `none` models the Rust panic on
an out-of-bounds source index. -/
def uploadCmds (content : AtlasContent) : List ImageData → Option (List Cmd)
  | [] => some []
  | d :: rest =>
    let width := d.rect.width * content.pixels
    let align : Int := (copyBytesPerRowAlign : Int)
    let padding := (align - width % align) % align
    let padded_width := width + padding
    match repackData d.data width.toNat d.rect.height.toNat with
    | none => none
    | some bytes =>
      match uploadCmds content rest with
      | none => none
      | some cs =>
        some (Cmd.copyRegion d.rect.x d.rect.y d.rect.width d.rect.height
          padded_width bytes :: cs)

/-- Mirror of `Atlas::update` (device and encoder omitted): returns the list
of copy commands recorded on the encoder, in recording order, together with
the updated atlas.  If the atlas is pending-clear, a full-atlas zero-fill
(with a `width*4`-bytes-per-row buffer padded to the copy alignment, exactly
as in the source) is recorded first and the flag is cleared; then every
queued upload is recorded in order and the queue is emptied. -/
def Atlas.update (a : Atlas) : Option (List Cmd × Atlas) :=
  let pre : List Cmd × Atlas :=
    if a.did_clear then
      let align : Int := (copyBytesPerRowAlign : Int)
      let width : Int := ((a.width * 4 : Nat) : Int)
      let padding := (align - width % align) % align
      let padded_width := width + padding
      ([Cmd.zeroFill a.width a.height padded_width
          (List.replicate (padded_width * (a.height : Int)).toNat 0)],
        { a with did_clear := false })
    else ([], a)
  match uploadCmds a.content a.new_data with
  | none => none
  | some ups => some (pre.1 ++ ups, { pre.2 with new_data := [] })

/-- Association-list model of `std::collections::HashMap` lookup
(`HashMap::get`). -/
def alistFind {K V : Type} [DecidableEq K] (k : K) : List (K × V) → Option V
  | [] => none
  | (k1, v) :: rest => if k1 = k then some v else alistFind k rest

/-- Association-list model of `HashMap::insert` (replaces an existing
binding for the key, otherwise appends a new one). -/
def alistInsert {K V : Type} [DecidableEq K] (k : K) (v : V) :
    List (K × V) → List (K × V)
  | [] => [(k, v)]
  | (k1, v1) :: rest =>
    if k1 = k then (k, v) :: rest else (k1, v1) :: alistInsert k v rest

/-- Mirror of `AtlasInfo` in `src/glyphs.rs` (the `Placement` of the spec). -/
structure AtlasInfo where
  rect : Option Rect
  left : Int
  top : Int
  colored : Bool
deriving DecidableEq, Repr

/-- Mirror of `PixelFormat` in `src/glyphs.rs`. -/
inductive PixelFormat where
  | Rgba
deriving DecidableEq, Repr

/-- Mirror of `Image` in `src/glyphs.rs`. -/
structure Image where
  width : Nat
  height : Nat
  data : List Nat
  pixel_format : PixelFormat
deriving DecidableEq, Repr

/-- Mirror of `cosmic_text::SwashContent` (external rasterizer output
classification: plain coverage mask, subpixel mask, or color). -/
inductive SwashContent where
  | Mask
  | SubpixelMask
  | Color
deriving DecidableEq, Repr

/-- Mirror of `swash::zeno::Placement` as used by `get_glyph_mask`: the
rasterizer's placement offsets and pixel dimensions. -/
structure SwashPlacement where
  left : Int
  top : Int
  width : Nat
  height : Nat
deriving DecidableEq, Repr

/-- Mirror of `cosmic_text::SwashImage`: the glyph rasterizer's result. -/
structure SwashImage where
  content : SwashContent
  placement : SwashPlacement
  data : List Nat
deriving DecidableEq, Repr

/-- Mirror of `cosmic_text::SubpixelBin` (a quantized subpixel offset bin,
used only as a cache-key component here). -/
inductive SubpixelBin where
  | Zero
  | One
  | Two
  | Three
deriving DecidableEq, Repr

/-- The glyph cache key `(fontdb::ID, u16, u32, (SubpixelBin, SubpixelBin))`;
the opaque `fontdb::ID` is modelled as a `Nat`. -/
abbrev GlyphKey : Type := Nat × Nat × Nat × (SubpixelBin × SubpixelBin)

/-- Mirror of `GlyphCache` in `src/glyphs.rs`.  The three `HashMap`s are
association lists. -/
structure GlyphCache where
  size : Nat
  mask_atlas : Atlas
  color_atlas : Atlas
  glyph_infos : List (GlyphKey × AtlasInfo)
  svg_infos : List (List Nat × List ((Nat × Nat) × AtlasInfo))
  img_infos : List (List Nat × AtlasInfo)
deriving DecidableEq, Repr

/-- Mirror of `GlyphCache::new` (device omitted). -/
def GlyphCache.new : GlyphCache :=
  { size := 1024
    mask_atlas := Atlas.new AtlasContent.Mask 1024 1024
    color_atlas := Atlas.new AtlasContent.Color 1024 1024
    glyph_infos := []
    svg_infos := []
    img_infos := [] }

/-- Mirror of `GlyphCache::clear`. -/
def GlyphCache.clear (c : GlyphCache) : GlyphCache :=
  { c with
      mask_atlas := c.mask_atlas.clear
      color_atlas := c.color_atlas.clear
      glyph_infos := []
      svg_infos := []
      img_infos := [] }

/-- Mirror of `GlyphCache::get_image_mask`.  The `FnOnce` rasterizer is
modelled by passing its result `image` as a value; the returned `Bool`
records whether the callback was invoked (the miss path). -/
def GlyphCache.get_image_mask (c : GlyphCache) (hash : List Nat) (image : Image) :
    AtlasInfo × GlyphCache × Bool :=
  match alistFind hash c.img_infos with
  | some info => (info, c, false)
  | none =>
    let p := c.color_atlas.add_region image.data image.width image.height
    let info : AtlasInfo := { rect := p.1, left := 0, top := 0, colored := true }
    (info,
      { c with
          color_atlas := p.2
          img_infos := alistInsert hash info c.img_infos }, true)

/-- Mirror of `GlyphCache::get_svg_mask`.  The first step inserts an empty
per-size table when the hash is absent (`contains_key` check in the
source); the `unwrap`s after it are modelled by `Option.getD` with the
empty table, which the preceding step makes unreachable.  The returned
`Bool` records whether the rasterizer callback was invoked. -/
def GlyphCache.get_svg_mask (c : GlyphCache) (hash : List Nat) (width height : Nat)
    (image : List Nat) : AtlasInfo × GlyphCache × Bool :=
  let c0 :=
    if (alistFind hash c.svg_infos).isSome then c
    else { c with svg_infos := alistInsert hash [] c.svg_infos }
  let inner := (alistFind hash c0.svg_infos).getD []
  match alistFind (width, height) inner with
  | some info => (info, c0, false)
  | none =>
    let p := c0.color_atlas.add_region image width height
    let info : AtlasInfo := { rect := p.1, left := 0, top := 0, colored := true }
    (info,
      { c0 with
          color_atlas := p.2
          svg_infos := alistInsert hash (alistInsert (width, height) info inner)
            c0.svg_infos }, true)

/-- Mirror of `GlyphCache::get_glyph_mask`.  The `FnOnce` rasterizer is
modelled by passing its result `image` as a value; the returned `Bool`
records whether it was invoked. -/
def GlyphCache.get_glyph_mask (c : GlyphCache) (font_id glyph_id size : Nat)
    (subpx : SubpixelBin × SubpixelBin) (image : SwashImage) :
    AtlasInfo × GlyphCache × Bool :=
  let key : GlyphKey := (font_id, glyph_id, size, subpx)
  match alistFind key c.glyph_infos with
  | some info => (info, c, false)
  | none =>
    let p :=
      match image.content with
      | SwashContent.Mask =>
        let q := c.mask_atlas.add_region image.data image.placement.width
          image.placement.height
        (q.1, { c with mask_atlas := q.2 })
      | SwashContent.SubpixelMask =>
        let q := c.color_atlas.add_region image.data image.placement.width
          image.placement.height
        (q.1, { c with color_atlas := q.2 })
      | SwashContent.Color =>
        let q := c.color_atlas.add_region image.data image.placement.width
          image.placement.height
        (q.1, { c with color_atlas := q.2 })
    let info : AtlasInfo :=
      { rect := p.1
        left := image.placement.left
        top := image.placement.top
        colored := decide (image.content ≠ SwashContent.Mask) }
    (info, { p.2 with glyph_infos := alistInsert key info p.2.glyph_infos }, true)

/-- Mirror of `GlyphCache::update` (device and encoder omitted): records the
mask atlas's commands, then the color atlas's. -/
def GlyphCache.update (c : GlyphCache) : Option (List Cmd × GlyphCache) :=
  match c.mask_atlas.update with
  | none => none
  | some (cm, ma) =>
    match c.color_atlas.update with
    | none => none
    | some (cc, ca) =>
      some (cm ++ cc, { c with mask_atlas := ma, color_atlas := ca })

/-- Mirror of `GlyphCache::check_usage` (device omitted).  The source
computes `(mask.max_seen as f32 * 2.0).max(color.max_seen as f32 * 2.0) as
u32`; this is modelled as the exact `2 * max _ _` over `Nat` (exact for all
dimensions below 2^24), and the `f32` literal `0.7` as the rational
`7/10`. -/
def GlyphCache.check_usage (c : GlyphCache) : Bool × GlyphCache :=
  let max_seen := 2 * max c.mask_atlas.max_seen c.color_atlas.max_seen
  if c.size < max_seen then
    let c1 := { c with size := max_seen }
    let c2 := { c1 with mask_atlas := c1.mask_atlas.resize c1.size c1.size }
    let c3 := { c2 with color_atlas := c2.color_atlas.resize c2.size c2.size }
    (true, c3.clear)
  else if (7 : ℚ) / 10 < c.mask_atlas.usage ∨ (7 : ℚ) / 10 < c.color_atlas.usage then
    (false, c.clear)
  else
    (false, c)

/-! ### Helper lemmas -/

theorem alistFind_insert_self {K V : Type} [DecidableEq K] (k : K) (v : V)
    (m : List (K × V)) : alistFind k (alistInsert k v m) = some v := by
  induction m with
  | nil => simp [alistFind, alistInsert]
  | cons kv rest ih =>
    by_cases hk : kv.1 = k
    · simp [alistFind, alistInsert, hk]
    · simpa [alistFind, alistInsert, hk] using ih

theorem Packer.pack_some_dims {p : Packer} {w h : Int} {r : Rect} {p2 : Packer}
    (hp : p.pack w h = some (r, p2)) : r.width = w ∧ r.height = h := by
  unfold Packer.pack at hp
  split at hp
  · exact absurd hp (by simp)
  · split at hp
    · simp only [Option.some.injEq, Prod.mk.injEq] at hp
      obtain ⟨hr, -⟩ := hp
      exact ⟨by rw [← hr], by rw [← hr]⟩
    · dsimp only at hp
      split at hp
      · simp only [Option.some.injEq, Prod.mk.injEq] at hp
        obtain ⟨hr, -⟩ := hp
        exact ⟨by rw [← hr], by rw [← hr]⟩
      · exact absurd hp (by simp)

theorem Atlas.add_region_preserves_dims (a : Atlas) (data : List Nat) (w h : Nat) :
    (a.add_region data w h).2.width = a.width ∧
    (a.add_region data w h).2.height = a.height := by
  unfold Atlas.add_region
  by_cases hm : a.max_seen < max w h <;>
    simp only [hm, if_true, if_false, reduceIte] <;>
    cases hpack : Packer.pack a.packer (w : Int) (h : Int) with
    | none => exact ⟨rfl, rfl⟩
    | some rp => exact ⟨rfl, rfl⟩

/-! ### Claim theorems for the Atlas component -/

/-- C5: `clear()` resets the packing structure to an empty packer of the
same dimensions, sets `area_used` to 0, discards the pending-upload queue
and sets the pending-clear flag, while `max_seen`, `width` and `height`
(and the content kind) are unchanged. -/
theorem clear_resets_state (a : Atlas) :
    (a.clear).packer = Packer.new (Atlas.get_packer_config a.width a.height) ∧
    (a.clear).area_used = 0 ∧
    (a.clear).new_data = [] ∧
    (a.clear).did_clear = true ∧
    (a.clear).max_seen = a.max_seen ∧
    (a.clear).width = a.width ∧
    (a.clear).height = a.height ∧
    (a.clear).content = a.content :=
  ⟨rfl, rfl, rfl, rfl, rfl, rfl, rfl, rfl⟩

/-- C6 (counterexample): the claim says `resize` resets the
largest-dimension-seen tracker to 0; but after `add_region` with a 5×5
request (so `max_seen = 5`) followed by `resize 2048 2048`, the tracker is
still 5, not 0: `resize` calls `clear`, which leaves `max_seen` alone. -/
theorem resize_max_seen_cex :
    (((Atlas.new AtlasContent.Mask 1024 1024).add_region [] 5 5).2.resize 2048 2048).max_seen
        = 5 ∧
    ¬ (((Atlas.new AtlasContent.Mask 1024 1024).add_region [] 5 5).2.resize
        2048 2048).max_seen = 0 := by
  decide

/-- C6 (amended): `resize width height` stores the new dimensions and
performs exactly the same state transition as `clear()` (fresh packer at
the new dimensions, `area_used = 0`, empty queue, pending-clear flag set);
the `max_seen` tracker is NOT reset — it keeps its previous value. -/
theorem resize_clear_transition (a : Atlas) (w h : Nat) :
    (a.resize w h).width = w ∧
    (a.resize w h).height = h ∧
    (a.resize w h).max_seen = a.max_seen ∧
    (a.resize w h).packer = Packer.new (Atlas.get_packer_config w h) ∧
    (a.resize w h).area_used = 0 ∧
    (a.resize w h).new_data = [] ∧
    (a.resize w h).did_clear = true ∧
    (a.resize w h).content = a.content :=
  ⟨rfl, rfl, rfl, rfl, rfl, rfl, rfl, rfl⟩

/-- C3 (counterexample): the claim says a failed `add_region` leaves every
field of the atlas, including `max_seen`, unchanged; but a 100×100 request
on a fresh 16×16 atlas fails to pack while bumping `max_seen` from 0 to
100 (the tracker is updated before the packer is consulted). -/
theorem add_region_failure_cex :
    ((Atlas.new AtlasContent.Mask 16 16).add_region [] 100 100).1 = none ∧
    (Atlas.new AtlasContent.Mask 16 16).max_seen = 0 ∧
    ((Atlas.new AtlasContent.Mask 16 16).add_region [] 100 100).2.max_seen = 100 := by
  decide

/-- C3 (amended): when the packer finds no free space, `add_region` returns
`none` and every field of the atlas except `max_seen` is unchanged;
`max_seen` becomes the maximum of its old value and the requested
dimensions (it is updated before the packer is consulted). -/
theorem add_region_failure_effects (a : Atlas) (data : List Nat) (w h : Nat)
    (hfail : a.packer.pack (w : Int) (h : Int) = none) :
    a.add_region data w h = (none, { a with max_seen := max a.max_seen (max w h) }) := by
  unfold Atlas.add_region
  by_cases hm : a.max_seen < max w h
  · have hmax : max a.max_seen (max w h) = max w h := by omega
    simp only [hm, if_true, reduceIte]
    cases hpack : Packer.pack a.packer (w : Int) (h : Int) with
    | none => simp [hmax]
    | some rp => exact absurd hpack (by simp [hfail])
  · have hmax : max a.max_seen (max w h) = a.max_seen := by omega
    simp only [hm, if_false, reduceIte]
    cases hpack : Packer.pack a.packer (w : Int) (h : Int) with
    | none => simp [hmax]
    | some rp => exact absurd hpack (by simp [hfail])

/-- Witness for C3 (amended) at a concrete input: a 100×100 request on a
fresh 16×16 mask atlas. -/
theorem add_region_failure_effects_witness :
    (Atlas.new AtlasContent.Mask 16 16).add_region [] 100 100 =
      (none, { Atlas.new AtlasContent.Mask 16 16 with
                max_seen := max (Atlas.new AtlasContent.Mask 16 16).max_seen (max 100 100) }) :=
  add_region_failure_effects (Atlas.new AtlasContent.Mask 16 16) [] 100 100 (by decide)

theorem Atlas.add_region_success_effects (a : Atlas) (data : List Nat) (w h : Nat)
    (rect : Rect) (a2 : Atlas) (heq : a.add_region data w h = (some rect, a2)) :
    rect.width = (w : Int) ∧ rect.height = (h : Int) ∧
    a2.area_used = a.area_used +
      (rect.width + Atlas.RECT_PADDING) * (rect.height + Atlas.RECT_PADDING) ∧
    a2.width = a.width ∧ a2.height = a.height ∧
    a2.new_data = a.new_data ++ [{ rect := rect, data := data }] ∧
    a2.did_clear = a.did_clear ∧ a2.content = a.content := by
  unfold Atlas.add_region at heq
  by_cases hm : a.max_seen < max w h <;>
    simp only [hm, reduceIte] at heq <;>
    cases hpack : Packer.pack a.packer (w : Int) (h : Int) <;>
    rw [hpack] at heq
  case pos.none | neg.none =>
    exact absurd (congrArg Prod.fst heq) (by simp)
  case pos.some rp | neg.some rp =>
    obtain ⟨r, p⟩ := rp
    simp only [Prod.mk.injEq, Option.some.injEq] at heq
    obtain ⟨hrect, ha2⟩ := heq
    subst hrect
    subst ha2
    exact ⟨(Packer.pack_some_dims hpack).1, (Packer.pack_some_dims hpack).2,
      rfl, rfl, rfl, rfl, rfl, rfl⟩

/-- C7 (counterexample): the claim says `usage()` stays equal for accepted
zero-size regions; but an accepted 0×0 region still increments `area_used`
by `(0+6)×(0+6) = 36`, so `usage()` strictly increases. -/
theorem usage_zero_size_cex :
    ((Atlas.new AtlasContent.Mask 1024 1024).add_region [] 0 0).1.isSome = true ∧
    (Atlas.new AtlasContent.Mask 1024 1024).usage <
      ((Atlas.new AtlasContent.Mask 1024 1024).add_region [] 0 0).2.usage := by
  refine ⟨by decide, ?_⟩
  have h1 : ((Atlas.new AtlasContent.Mask 1024 1024).add_region [] 0 0).2.area_used = 36 := by
    decide
  have h2 : ((Atlas.new AtlasContent.Mask 1024 1024).add_region [] 0 0).2.width = 1024 := by
    decide
  have h3 : ((Atlas.new AtlasContent.Mask 1024 1024).add_region [] 0 0).2.height = 1024 := by
    decide
  have h4 : (Atlas.new AtlasContent.Mask 1024 1024).area_used = 0 := by decide
  have h5 : (Atlas.new AtlasContent.Mask 1024 1024).width = 1024 := by decide
  have h6 : (Atlas.new AtlasContent.Mask 1024 1024).height = 1024 := by decide
  unfold Atlas.usage
  rw [h1, h2, h3, h4, h5, h6]
  norm_num

/-- C7 (amended): each accepted `add_region` increases `area_used` by
exactly `(rect.width + 6) × (rect.height + 6)`, hence `usage()` strictly
increases with every accepted call — including zero-size regions, whose
padded area is still 36 (provided the atlas area is positive); and
`usage()` equals exactly 0 immediately after `clear()` or `resize()`. -/
theorem usage_after_ops (a : Atlas) (data : List Nat) (w h : Nat)
    (rect : Rect) (a2 : Atlas) (w2 h2 : Nat) :
    (a.add_region data w h = (some rect, a2) →
      a2.area_used = a.area_used +
        (rect.width + Atlas.RECT_PADDING) * (rect.height + Atlas.RECT_PADDING) ∧
      (0 < a.width * a.height → a.usage < a2.usage)) ∧
    (a.clear).usage = 0 ∧ (a.resize w2 h2).usage = 0 := by
  refine ⟨?_, ?_, ?_⟩
  · intro heq
    obtain ⟨hw, hh, harea, hwid, hht, -, -, -⟩ :=
      Atlas.add_region_success_effects a data w h rect a2 heq
    refine ⟨harea, fun hpos => ?_⟩
    have hD : (0 : ℚ) < ((a.width * a.height : Nat) : ℚ) := by exact_mod_cast hpos
    unfold Atlas.usage
    rw [hwid, hht, div_lt_div_iff_of_pos_right hD]
    have hinc : (0 : Int) <
        (rect.width + Atlas.RECT_PADDING) * (rect.height + Atlas.RECT_PADDING) := by
      rw [hw, hh]
      have hw0 : (0 : Int) ≤ (w : Int) := Int.natCast_nonneg w
      have hh0 : (0 : Int) ≤ (h : Int) := Int.natCast_nonneg h
      unfold Atlas.RECT_PADDING
      nlinarith
    rw [harea]
    exact_mod_cast lt_add_of_pos_right a.area_used hinc
  · unfold Atlas.usage Atlas.clear
    simp
  · unfold Atlas.usage Atlas.resize Atlas.clear
    simp

/-- Witness for C7 (amended) at a concrete input: a 4×4 region accepted
into a fresh 1024×1024 mask atlas strictly increases `usage`, and `clear`
and `resize` reset it to 0. -/
theorem usage_after_ops_witness :
    ((Atlas.new AtlasContent.Mask 1024 1024).usage <
      ((Atlas.new AtlasContent.Mask 1024 1024).add_region [] 4 4).2.usage) ∧
    ((Atlas.new AtlasContent.Mask 1024 1024).clear).usage = 0 ∧
    ((Atlas.new AtlasContent.Mask 1024 1024).resize 8 8).usage = 0 := by
  have h := usage_after_ops (Atlas.new AtlasContent.Mask 1024 1024) [] 4 4
    { x := 6, y := 6, width := 4, height := 4 }
    ((Atlas.new AtlasContent.Mask 1024 1024).add_region [] 4 4).2 8 8
  exact ⟨(h.1 (by decide)).2 (by decide), h.2.1, h.2.2⟩

/-! ### Claim theorems for the GlyphCache component -/

/-- C2: after a first `get_image_mask`, `get_svg_mask` or `get_glyph_mask`
call, a second call with the identical key returns the same Placement, does
not invoke the rasterizer callback (third component `false`, even with a
different callback result), and leaves the cache and its atlases unchanged
(second component is the same cache state). -/
theorem repeat_lookup_memoized (c : GlyphCache) (hash : List Nat) (img img2 : Image)
    (w h : Nat) (svg svg2 : List Nat) (fid gid sz : Nat)
    (sp : SubpixelBin × SubpixelBin) (gimg gimg2 : SwashImage) :
    (GlyphCache.get_image_mask (c.get_image_mask hash img).2.1 hash img2 =
      ((c.get_image_mask hash img).1, (c.get_image_mask hash img).2.1, false)) ∧
    (GlyphCache.get_svg_mask (c.get_svg_mask hash w h svg).2.1 hash w h svg2 =
      ((c.get_svg_mask hash w h svg).1, (c.get_svg_mask hash w h svg).2.1, false)) ∧
    (GlyphCache.get_glyph_mask (c.get_glyph_mask fid gid sz sp gimg).2.1 fid gid sz sp gimg2 =
      ((c.get_glyph_mask fid gid sz sp gimg).1,
        (c.get_glyph_mask fid gid sz sp gimg).2.1, false)) := by
  refine ⟨?_, ?_, ?_⟩
  · cases hfind : alistFind hash c.img_infos with
    | some info => simp [GlyphCache.get_image_mask, hfind]
    | none => simp [GlyphCache.get_image_mask, hfind, alistFind_insert_self]
  · cases houter : alistFind hash c.svg_infos with
    | some inner0 =>
      cases hfind : alistFind (w, h) inner0 with
      | some info =>
        simp [GlyphCache.get_svg_mask, houter, hfind]
      | none =>
        simp [GlyphCache.get_svg_mask, houter, hfind, alistFind_insert_self]
    | none =>
      simp [GlyphCache.get_svg_mask, houter, alistFind_insert_self, alistFind]
  · cases hfind : alistFind (fid, gid, sz, sp) c.glyph_infos with
    | some info => simp [GlyphCache.get_glyph_mask, hfind]
    | none =>
      cases hc : gimg.content <;>
        simp [GlyphCache.get_glyph_mask, hfind, hc, alistFind_insert_self]

/-- C8: on a `get_glyph_mask` cache miss, the rasterized content's
classification routes the placement: plain coverage masks go through the
mask atlas's `add_region` (color atlas untouched), subpixel-mask or color
content through the color atlas's `add_region` (mask atlas untouched); the
returned and stored Placement takes `left`/`top` from the rasterizer's
placement offsets and `colored = (classification ≠ plain coverage mask)`. -/
theorem glyph_miss_routing (c : GlyphCache) (fid gid sz : Nat)
    (sp : SubpixelBin × SubpixelBin) (gimg : SwashImage)
    (hmiss : alistFind (fid, gid, sz, sp) c.glyph_infos = none) :
    (c.get_glyph_mask fid gid sz sp gimg).1.left = gimg.placement.left ∧
    (c.get_glyph_mask fid gid sz sp gimg).1.top = gimg.placement.top ∧
    (c.get_glyph_mask fid gid sz sp gimg).1.colored
      = decide (gimg.content ≠ SwashContent.Mask) ∧
    (gimg.content = SwashContent.Mask →
      (c.get_glyph_mask fid gid sz sp gimg).1.rect =
        (c.mask_atlas.add_region gimg.data gimg.placement.width gimg.placement.height).1 ∧
      (c.get_glyph_mask fid gid sz sp gimg).2.1.mask_atlas =
        (c.mask_atlas.add_region gimg.data gimg.placement.width gimg.placement.height).2 ∧
      (c.get_glyph_mask fid gid sz sp gimg).2.1.color_atlas = c.color_atlas) ∧
    (gimg.content ≠ SwashContent.Mask →
      (c.get_glyph_mask fid gid sz sp gimg).1.rect =
        (c.color_atlas.add_region gimg.data gimg.placement.width gimg.placement.height).1 ∧
      (c.get_glyph_mask fid gid sz sp gimg).2.1.color_atlas =
        (c.color_atlas.add_region gimg.data gimg.placement.width gimg.placement.height).2 ∧
      (c.get_glyph_mask fid gid sz sp gimg).2.1.mask_atlas = c.mask_atlas) ∧
    alistFind (fid, gid, sz, sp) (c.get_glyph_mask fid gid sz sp gimg).2.1.glyph_infos =
      some (c.get_glyph_mask fid gid sz sp gimg).1 := by
  cases hc : gimg.content <;>
    simp [GlyphCache.get_glyph_mask, hmiss, hc, alistFind_insert_self]

/-- Witness for C8 at a concrete input: a fresh cache and a plain
coverage-mask glyph image. -/
theorem glyph_miss_routing_witness :
    (GlyphCache.new.get_glyph_mask 1 2 12 (SubpixelBin.Zero, SubpixelBin.Zero)
        { content := SwashContent.Mask
          placement := { left := 3, top := 4, width := 5, height := 5 }
          data := List.replicate 25 0 }).1.left = 3 ∧
    (GlyphCache.new.get_glyph_mask 1 2 12 (SubpixelBin.Zero, SubpixelBin.Zero)
        { content := SwashContent.Mask
          placement := { left := 3, top := 4, width := 5, height := 5 }
          data := List.replicate 25 0 }).1.rect =
      (GlyphCache.new.mask_atlas.add_region (List.replicate 25 0) 5 5).1 := by
  have h := glyph_miss_routing GlyphCache.new 1 2 12 (SubpixelBin.Zero, SubpixelBin.Zero)
    { content := SwashContent.Mask
      placement := { left := 3, top := 4, width := 5, height := 5 }
      data := List.replicate 25 0 } (by decide)
  exact ⟨h.1, (h.2.2.2.1 rfl).1⟩

/-- C9: on a cache miss in `get_image_mask`, `get_svg_mask` or
`get_glyph_mask` for which `add_region` fails, the Placement with
`rect = none` is still stored in the lookup table: a subsequent call with
the identical key returns the same `rect = none` Placement, invokes no
rasterizer and retries no placement (cache state is returned unchanged);
and after `clear()` the entry is gone, so the key is a fresh miss again. -/
theorem unplaceable_placement_memoized (c : GlyphCache) (hash : List Nat)
    (img img2 : Image) (w h : Nat) (svg svg2 : List Nat) (fid gid sz : Nat)
    (sp : SubpixelBin × SubpixelBin) (gimg gimg2 : SwashImage)
    (h1 : alistFind hash c.img_infos = none)
    (h2 : (c.color_atlas.add_region img.data img.width img.height).1 = none)
    (h3 : alistFind hash c.svg_infos = none)
    (h4 : (c.color_atlas.add_region svg w h).1 = none)
    (h5 : alistFind (fid, gid, sz, sp) c.glyph_infos = none)
    (h6 : (c.mask_atlas.add_region gimg.data gimg.placement.width
      gimg.placement.height).1 = none)
    (h7 : (c.color_atlas.add_region gimg.data gimg.placement.width
      gimg.placement.height).1 = none) :
    ((c.get_image_mask hash img).1.rect = none ∧
      alistFind hash (c.get_image_mask hash img).2.1.img_infos =
        some (c.get_image_mask hash img).1 ∧
      GlyphCache.get_image_mask (c.get_image_mask hash img).2.1 hash img2 =
        ((c.get_image_mask hash img).1, (c.get_image_mask hash img).2.1, false) ∧
      alistFind hash ((c.get_image_mask hash img).2.1.clear).img_infos = none) ∧
    ((c.get_svg_mask hash w h svg).1.rect = none ∧
      alistFind (w, h)
        ((alistFind hash (c.get_svg_mask hash w h svg).2.1.svg_infos).getD []) =
        some (c.get_svg_mask hash w h svg).1 ∧
      GlyphCache.get_svg_mask (c.get_svg_mask hash w h svg).2.1 hash w h svg2 =
        ((c.get_svg_mask hash w h svg).1, (c.get_svg_mask hash w h svg).2.1, false) ∧
      alistFind hash ((c.get_svg_mask hash w h svg).2.1.clear).svg_infos = none) ∧
    ((c.get_glyph_mask fid gid sz sp gimg).1.rect = none ∧
      alistFind (fid, gid, sz, sp)
        (c.get_glyph_mask fid gid sz sp gimg).2.1.glyph_infos =
        some (c.get_glyph_mask fid gid sz sp gimg).1 ∧
      GlyphCache.get_glyph_mask (c.get_glyph_mask fid gid sz sp gimg).2.1
          fid gid sz sp gimg2 =
        ((c.get_glyph_mask fid gid sz sp gimg).1,
          (c.get_glyph_mask fid gid sz sp gimg).2.1, false) ∧
      alistFind (fid, gid, sz, sp)
        ((c.get_glyph_mask fid gid sz sp gimg).2.1.clear).glyph_infos = none) := by
  refine ⟨⟨?_, ?_, ?_, ?_⟩, ⟨?_, ?_, ?_, ?_⟩, ⟨?_, ?_, ?_, ?_⟩⟩
  · simp [GlyphCache.get_image_mask, h1, h2]
  · simp [GlyphCache.get_image_mask, h1, alistFind_insert_self]
  · simp [GlyphCache.get_image_mask, h1, alistFind_insert_self]
  · simp [GlyphCache.get_image_mask, h1, GlyphCache.clear, alistFind]
  · simp [GlyphCache.get_svg_mask, h3, h4, alistFind, alistFind_insert_self]
  · simp [GlyphCache.get_svg_mask, h3, alistFind, alistFind_insert_self]
  · simp [GlyphCache.get_svg_mask, h3, alistFind, alistFind_insert_self]
  · simp [GlyphCache.get_svg_mask, h3, GlyphCache.clear, alistFind, alistFind_insert_self]
  · cases hc : gimg.content <;>
      simp [GlyphCache.get_glyph_mask, h5, h6, h7, hc]
  · cases hc : gimg.content <;>
      simp [GlyphCache.get_glyph_mask, h5, hc, alistFind_insert_self]
  · cases hc : gimg.content <;>
      simp [GlyphCache.get_glyph_mask, h5, hc, alistFind_insert_self]
  · cases hc : gimg.content <;>
      simp [GlyphCache.get_glyph_mask, h5, hc, GlyphCache.clear, alistFind]

/-- Witness for C9 at a concrete input: a fresh cache with 1024×1024
atlases and 2000-pixel-wide rasterizations, which no packer placement can
accommodate. -/
theorem unplaceable_placement_memoized_witness :
    (GlyphCache.new.get_image_mask [1]
        { width := 2000, height := 2000, data := [], pixel_format := PixelFormat.Rgba }).1.rect
      = none ∧
    (GlyphCache.new.get_svg_mask [2] 2000 2000 []).1.rect = none ∧
    (GlyphCache.new.get_glyph_mask 1 2 12 (SubpixelBin.Zero, SubpixelBin.Zero)
        { content := SwashContent.Color
          placement := { left := 0, top := 0, width := 2000, height := 2000 }
          data := [] }).1.rect = none := by
  have h := unplaceable_placement_memoized GlyphCache.new [1]
    { width := 2000, height := 2000, data := [], pixel_format := PixelFormat.Rgba }
    { width := 2000, height := 2000, data := [], pixel_format := PixelFormat.Rgba }
    2000 2000 [] [] 1 2 12 (SubpixelBin.Zero, SubpixelBin.Zero)
    { content := SwashContent.Color
      placement := { left := 0, top := 0, width := 2000, height := 2000 }
      data := [] }
    { content := SwashContent.Color
      placement := { left := 0, top := 0, width := 2000, height := 2000 }
      data := [] }
    (by decide) (by decide) (by decide) (by decide) (by decide) (by decide) (by decide)
  exact ⟨h.1.1, h.2.1.1, h.2.2.1⟩

/-- C1: `check_usage` computes `required = 2 × max(mask_atlas.max_seen,
color_atlas.max_seen)`.  If `required > size`, it resizes both atlases to
`required × required`, clears the whole cache (both atlases reset and
pending-clear, all three lookup tables emptied) and returns `true`; else
if either atlas's `usage()` exceeds `0.7` it clears the whole cache
without changing atlas sizes and returns `false`; otherwise it changes
nothing and returns `false`. -/
theorem check_usage_policy (c : GlyphCache) :
    (c.size < 2 * max c.mask_atlas.max_seen c.color_atlas.max_seen →
      (c.check_usage).1 = true ∧
      (c.check_usage).2.size = 2 * max c.mask_atlas.max_seen c.color_atlas.max_seen ∧
      (c.check_usage).2.mask_atlas.width =
        2 * max c.mask_atlas.max_seen c.color_atlas.max_seen ∧
      (c.check_usage).2.mask_atlas.height =
        2 * max c.mask_atlas.max_seen c.color_atlas.max_seen ∧
      (c.check_usage).2.color_atlas.width =
        2 * max c.mask_atlas.max_seen c.color_atlas.max_seen ∧
      (c.check_usage).2.color_atlas.height =
        2 * max c.mask_atlas.max_seen c.color_atlas.max_seen ∧
      (c.check_usage).2.mask_atlas.area_used = 0 ∧
      (c.check_usage).2.mask_atlas.new_data = [] ∧
      (c.check_usage).2.mask_atlas.did_clear = true ∧
      (c.check_usage).2.color_atlas.area_used = 0 ∧
      (c.check_usage).2.color_atlas.new_data = [] ∧
      (c.check_usage).2.color_atlas.did_clear = true ∧
      (c.check_usage).2.glyph_infos = [] ∧
      (c.check_usage).2.svg_infos = [] ∧
      (c.check_usage).2.img_infos = []) ∧
    (¬ c.size < 2 * max c.mask_atlas.max_seen c.color_atlas.max_seen →
      ((7 : ℚ) / 10 < c.mask_atlas.usage ∨ (7 : ℚ) / 10 < c.color_atlas.usage) →
      c.check_usage = (false, c.clear) ∧
      (c.check_usage).2.size = c.size ∧
      (c.check_usage).2.mask_atlas.width = c.mask_atlas.width ∧
      (c.check_usage).2.mask_atlas.height = c.mask_atlas.height ∧
      (c.check_usage).2.color_atlas.width = c.color_atlas.width ∧
      (c.check_usage).2.color_atlas.height = c.color_atlas.height ∧
      (c.check_usage).2.glyph_infos = [] ∧
      (c.check_usage).2.svg_infos = [] ∧
      (c.check_usage).2.img_infos = []) ∧
    (¬ c.size < 2 * max c.mask_atlas.max_seen c.color_atlas.max_seen →
      ¬ ((7 : ℚ) / 10 < c.mask_atlas.usage ∨ (7 : ℚ) / 10 < c.color_atlas.usage) →
      c.check_usage = (false, c)) := by
  refine ⟨fun hgrow => ?_, fun hfit hbusy => ?_, fun hfit hok => ?_⟩
  · simp [GlyphCache.check_usage, hgrow, GlyphCache.clear, Atlas.clear, Atlas.resize]
  · simp [GlyphCache.check_usage, hfit, hbusy, GlyphCache.clear, Atlas.clear]
  · simp [GlyphCache.check_usage, hfit, hok]

/-- Witness for C1 at a concrete input: a fresh cache whose mask atlas has
seen a 600-pixel dimension, so `required = 1200 > 1024` and `check_usage`
grows both atlases to 1200×1200, wipes everything and returns `true`. -/
theorem check_usage_policy_witness :
    ({ GlyphCache.new with
        mask_atlas := ((GlyphCache.new.mask_atlas).add_region [] 600 600).2 } :
      GlyphCache).check_usage.1 = true ∧
    ({ GlyphCache.new with
        mask_atlas := ((GlyphCache.new.mask_atlas).add_region [] 600 600).2 } :
      GlyphCache).check_usage.2.size = 1200 ∧
    ({ GlyphCache.new with
        mask_atlas := ((GlyphCache.new.mask_atlas).add_region [] 600 600).2 } :
      GlyphCache).check_usage.2.mask_atlas.width = 1200 := by
  have h := (check_usage_policy { GlyphCache.new with
    mask_atlas := ((GlyphCache.new.mask_atlas).add_region [] 600 600).2 }).1 (by decide)
  have hmax : 2 * max (({ GlyphCache.new with
      mask_atlas := ((GlyphCache.new.mask_atlas).add_region [] 600 600).2 } :
    GlyphCache).mask_atlas.max_seen) (({ GlyphCache.new with
      mask_atlas := ((GlyphCache.new.mask_atlas).add_region [] 600 600).2 } :
    GlyphCache).color_atlas.max_seen) = 1200 := by decide
  exact ⟨h.1, by rw [h.2.1, hmax], by rw [h.2.2.1, hmax]⟩

/-- A command list consists exactly of one per-region copy per queued
upload, in queue order, each positioned at its rect's origin with the
rect's unpadded dimensions. -/
def matchesQueue : List Cmd → List ImageData → Prop
  | [], [] => True
  | Cmd.copyRegion x y w h _ _ :: cs, d :: ds =>
    x = d.rect.x ∧ y = d.rect.y ∧ w = d.rect.width ∧ h = d.rect.height ∧
      matchesQueue cs ds
  | _, _ => False

theorem uploadCmds_matchesQueue (content : AtlasContent) :
    ∀ (l : List ImageData) (ups : List Cmd),
      uploadCmds content l = some ups → matchesQueue ups l := by
  intro l
  induction l with
  | nil =>
    intro ups hup
    simp only [uploadCmds, Option.some.injEq] at hup
    simp [← hup, matchesQueue]
  | cons d rest ih =>
    intro ups hup
    unfold uploadCmds at hup
    dsimp only at hup
    cases hrepack : repackData d.data (d.rect.width * content.pixels).toNat
        d.rect.height.toNat with
    | none => rw [hrepack] at hup; exact absurd hup (by simp)
    | some bytes =>
      rw [hrepack] at hup
      cases hrest : uploadCmds content rest with
      | none => rw [hrest] at hup; exact absurd hup (by simp)
      | some cs =>
        rw [hrest] at hup
        simp only [Option.some.injEq] at hup
        rw [← hup]
        exact ⟨rfl, rfl, rfl, rfl, ih cs hrest⟩

/-- C4: when `update` succeeds, the full-atlas zero-fill copy is recorded
first and exactly when the atlas was pending-clear; the per-region copies
follow in queued order, each with its rect's unpadded dimensions at the
rect's origin; afterwards the pending-clear flag is cleared and the
pending-upload queue is empty. -/
theorem update_effects (a : Atlas) (cmds : List Cmd) (a2 : Atlas)
    (hupd : a.update = some (cmds, a2)) :
    a2.did_clear = false ∧ a2.new_data = [] ∧
    (a.did_clear = true →
      ∃ pw bytes rest, cmds = Cmd.zeroFill a.width a.height pw bytes :: rest ∧
        matchesQueue rest a.new_data) ∧
    (a.did_clear = false → matchesQueue cmds a.new_data) := by
  unfold Atlas.update at hupd
  cases hups : uploadCmds a.content a.new_data with
  | none => rw [hups] at hupd; exact absurd hupd (by cases hd : a.did_clear <;> simp [hd])
  | some ups =>
    rw [hups] at hupd
    cases hd : a.did_clear <;> rw [hd] at hupd <;>
      simp only [Bool.false_eq_true, if_false, if_true, reduceIte,
        Option.some.injEq, Prod.mk.injEq] at hupd <;>
      obtain ⟨hcmds, ha2⟩ := hupd <;> subst ha2
    · refine ⟨hd, rfl, fun hcontra => absurd hcontra (by simp),
        fun _ => ?_⟩
      rw [← hcmds]
      simpa using uploadCmds_matchesQueue a.content a.new_data ups hups
    · refine ⟨rfl, rfl, fun _ => ?_, fun hcontra => absurd hcontra (by simp)⟩
      exact ⟨_, _, ups, by rw [← hcmds]; rfl,
        uploadCmds_matchesQueue a.content a.new_data ups hups⟩

/-- Concrete pending-clear atlas used to witness `update_effects`. -/
def updateWitnessAtlas : Atlas :=
  { max_seen := 0
    width := 2
    height := 1
    packer := Packer.new (Atlas.get_packer_config 2 1)
    new_data := [{ rect := { x := 0, y := 0, width := 1, height := 1 }, data := [7] }]
    area_used := 0
    did_clear := true
    content := AtlasContent.Mask }

/-- Commands recorded by `update` on `updateWitnessAtlas`. -/
def updateWitnessCmds : List Cmd :=
  [Cmd.zeroFill 2 1 256 (List.replicate 256 0),
   Cmd.copyRegion 0 0 1 1 256 (7 :: List.replicate 255 0)]

/-- State of `updateWitnessAtlas` after `update`. -/
def updateWitnessAfter : Atlas :=
  { updateWitnessAtlas with did_clear := false, new_data := [] }

/-- Witness for C4 at a concrete input: a 2×1 pending-clear mask atlas with
one queued 1×1 upload. -/
theorem update_effects_witness :
    updateWitnessAtlas.update = some (updateWitnessCmds, updateWitnessAfter) ∧
    (updateWitnessAfter.did_clear = false ∧ updateWitnessAfter.new_data = [] ∧
      (updateWitnessAtlas.did_clear = true →
        ∃ pw bytes rest,
          updateWitnessCmds =
            Cmd.zeroFill updateWitnessAtlas.width updateWitnessAtlas.height pw bytes
              :: rest ∧
          matchesQueue rest updateWitnessAtlas.new_data) ∧
      (updateWitnessAtlas.did_clear = false →
        matchesQueue updateWitnessCmds updateWitnessAtlas.new_data)) :=
  ⟨by set_option maxRecDepth 4000 in decide,
    update_effects updateWitnessAtlas updateWitnessCmds updateWitnessAfter
      (by set_option maxRecDepth 4000 in decide)⟩

theorem padAlign_length (l : List Nat) :
    (padAlign l).length =
      l.length +
        (copyBytesPerRowAlign - l.length % copyBytesPerRowAlign) % copyBytesPerRowAlign := by
  simp [padAlign]

theorem readRun_some (bytes : List Nat) :
    ∀ (c i : Nat), i + c ≤ bytes.length →
      ∃ row, readRun bytes i c = some row ∧ row.length = c := by
  intro c
  induction c with
  | zero => intro i _; exact ⟨[], rfl, rfl⟩
  | succ n ih =>
    intro i hle
    have hi : i < bytes.length := by omega
    obtain ⟨row, hr, hlen⟩ := ih (i + 1) (by omega)
    refine ⟨bytes.get ⟨i, hi⟩ :: row, ?_, by simp [hlen]⟩
    unfold readRun
    rw [List.get?_eq_get hi, hr]

theorem repackLoop_spec (bytes : List Nat) (width : Nat) :
    ∀ (rows i : Nat) (acc : List Nat),
      acc.length % copyBytesPerRowAlign = 0 →
      i + width * rows ≤ bytes.length →
      ∃ l, repackLoop bytes width i acc rows = some l ∧
        l.length = acc.length + rows * paddedWidth width := by
  intro rows
  induction rows with
  | zero => intro i acc hacc _; exact ⟨acc, rfl, by simp⟩
  | succ n ih =>
    intro i acc hacc hle
    have hmul : width * (n + 1) = width * n + width := Nat.mul_succ width n
    obtain ⟨row, hr, hrowlen⟩ := readRun_some bytes width i (by omega)
    have hlen1 : (padAlign (acc ++ row)).length = acc.length + paddedWidth width := by
      rw [padAlign_length]
      simp only [List.length_append, hrowlen, paddedWidth, copyBytesPerRowAlign] at *
      omega
    have hmod1 : (padAlign (acc ++ row)).length % copyBytesPerRowAlign = 0 := by
      rw [hlen1]
      simp only [paddedWidth, copyBytesPerRowAlign] at *
      omega
    obtain ⟨l, hl, hllen⟩ := ih (i + width) (padAlign (acc ++ row)) hmod1 (by omega)
    refine ⟨l, ?_, ?_⟩
    · unfold repackLoop
      rw [hr]
      exact hl
    · rw [hllen, hlen1, Nat.succ_mul]
      omega

/-- C10: when a queued upload's byte length equals
`rect.width × rect.height × channels`, the row-repacking loop of
`Atlas::update` never indexes past the end of the source bytes (it
produces a result instead of the out-of-bounds `none`), and the produced
buffer's length is exactly `padded_width × rect.height`, where
`padded_width` is `rect.width × channels` rounded up to the next multiple
of the copy alignment — the source's `assert!` holds. -/
theorem repack_in_bounds (w h channels : Nat) (bytes : List Nat)
    (hlen : bytes.length = w * h * channels) :
    ∃ l, repackData bytes (w * channels) h = some l ∧
      l.length = paddedWidth (w * channels) * h := by
  have hcomm : w * channels * h = w * h * channels := by ring
  obtain ⟨l, hl, hllen⟩ := repackLoop_spec bytes (w * channels) h 0 []
    (by simp) (by omega)
  exact ⟨l, hl, by rw [hllen]; simp [Nat.mul_comm]⟩

/-- Witness for C10 at a concrete input: a 2×3 single-channel upload with
6 source bytes repacks into 3 rows of 256 aligned bytes. -/
theorem repack_in_bounds_witness :
    ∃ l, repackData (List.replicate 6 0) (2 * 1) 3 = some l ∧
      l.length = paddedWidth (2 * 1) * 3 :=
  repack_in_bounds 2 3 1 (List.replicate 6 0) (by decide)

end Vger
